import Mathlib

set_option autoImplicit false

/-!
Shallow embedding of the processor-ai repository core:
the gateway handler (`api/gemini.ts`), the request builder inlined in it,
and the calling-side service (`src/services/geminiService.ts`) with its
result normalizer, over a JSON value model mirroring the JavaScript
runtime values these functions manipulate.
-/

namespace ProcessorAI

/-- JSON values as they flow through the system.  Numbers are kept as their
source lexeme: no claim compares numeric values, only whether parsing
succeeds and which structural fields are present. -/
inductive Json where
  | nul
  | bool (b : Bool)
  | num (lexeme : String)
  | str (s : String)
  | arr (elems : List Json)
  | obj (fields : List (String × Json))
  deriving Repr, Inhabited

/-- Last binding wins, matching how `JSON.parse` and JS object literals
treat duplicate keys. -/
def lookupLast (fields : List (String × Json)) (k : String) : Option Json :=
  fields.foldl (fun acc kv => if kv.1 = k then some kv.2 else acc) none

/-- JS property access `j.k`: a lookup on objects, `undefined` (here `none`)
on every other value.  Mirrors both plain access guarded by truthiness and
optional chaining `?.` at the call sites embedded below. -/
def getField : Json → String → Option Json
  | Json.obj fields, k => lookupLast fields k
  | _, _ => none

/-- JS index access `j[i]` on an array; `undefined` otherwise. -/
def getIndex : Json → Nat → Option Json
  | Json.arr xs, i => xs.get? i
  | _, _ => none

/-- JS truthiness of a JSON value: `null`, `false`, `0` and `""` are falsy;
objects and arrays are always truthy.  A parsed number is zero exactly when
every digit of its lexeme is `0`. -/
def jsTruthy : Json → Bool
  | Json.nul => false
  | Json.bool b => b
  | Json.num lexeme => lexeme.data.any (fun c => c.isDigit && c ≠ '0')
  | Json.str s => s != ""
  | Json.arr _ => true
  | Json.obj _ => true

/-- Truthiness of field `k` of `j`, i.e. the JS guard `if (j.k)`. -/
def fieldTruthy (j : Json) (k : String) : Bool :=
  match getField j k with
  | some v => jsTruthy v
  | none => false

/-- JS `a || b` where `a` is an optional field value. -/
def jsOr (o : Option Json) (fallback : Json) : Json :=
  match o with
  | some v => if jsTruthy v then v else fallback
  | none => fallback

/-- JS `a || b` specialised to the string-typed positions of the source:
the result is used as a string, and in the typed interfaces of the
repository these fields are strings, so a present non-string value is
modelled as falling back like a falsy one. -/
def jsOrStr (o : Option Json) (fallback : String) : String :=
  match o with
  | some (Json.str s) => if s = "" then fallback else s
  | _ => fallback

/-- JS strict equality `o === s` of a field value against a string literal:
true exactly when the value is present and is that string. -/
def jsStrEq (o : Option Json) (s : String) : Bool :=
  match o with
  | some (Json.str t) => t = s
  | _ => false

/-- Extraction of a `string[]`-typed field value (`parsed.keyPoints || []`):
an array keeps its string elements, anything else yields the default. -/
def strElems (o : Option Json) : List String :=
  match o with
  | some (Json.arr xs) =>
    xs.filterMap (fun j => match j with | Json.str s => some s | _ => none)
  | _ => []

/-! ### A model of `JSON.parse`

Recursive-descent parser over the character list, faithful to the JSON
grammar (strict: no leading garbage, no trailing garbage, strict number
syntax, string escapes).  Recursion is fueled; the fuel chosen in
`jsonParse` always suffices for terminating inputs. -/

def leftBrace : Char := Char.ofNat 123

def rightBrace : Char := Char.ofNat 125

def skipWs : List Char → List Char
  | [] => []
  | c :: cs =>
    if c = ' ' ∨ c = '\t' ∨ c = '\n' ∨ c = '\r' then skipWs cs else c :: cs

def hexVal (c : Char) : Option Nat :=
  if '0' ≤ c ∧ c ≤ '9' then some (c.toNat - 48)
  else if 'a' ≤ c ∧ c ≤ 'f' then some (c.toNat - 87)
  else if 'A' ≤ c ∧ c ≤ 'F' then some (c.toNat - 55)
  else none

/-- Parse the body of a JSON string after the opening quote, handling the
escape sequences of the JSON grammar (`\uXXXX` as a single code unit). -/
def parseStringBody (fuel : Nat) (acc : List Char) (cs : List Char) :
    Option (String × List Char) :=
  match fuel, cs with
  | 0, _ => none
  | _, [] => none
  | fuel + 1, c :: rest =>
    if c = '"' then some (String.mk acc.reverse, rest)
    else if c = '\\' then
      match rest with
      | '"' :: r => parseStringBody fuel ('"' :: acc) r
      | '\\' :: r => parseStringBody fuel ('\\' :: acc) r
      | '/' :: r => parseStringBody fuel ('/' :: acc) r
      | 'b' :: r => parseStringBody fuel (Char.ofNat 8 :: acc) r
      | 'f' :: r => parseStringBody fuel (Char.ofNat 12 :: acc) r
      | 'n' :: r => parseStringBody fuel ('\n' :: acc) r
      | 'r' :: r => parseStringBody fuel ('\r' :: acc) r
      | 't' :: r => parseStringBody fuel ('\t' :: acc) r
      | 'u' :: h1 :: h2 :: h3 :: h4 :: r =>
        match hexVal h1, hexVal h2, hexVal h3, hexVal h4 with
        | some a, some b, some c3, some d =>
          parseStringBody fuel (Char.ofNat (((a * 16 + b) * 16 + c3) * 16 + d) :: acc) r
        | _, _, _, _ => none
      | _ => none
    else if c.toNat < 32 then none
    else parseStringBody fuel (c :: acc) rest

/-- Longest prefix of decimal digits, with the rest. -/
def takeDigits : List Char → List Char × List Char
  | [] => ([], [])
  | c :: cs =>
    if c.isDigit then
      let (ds, r) := takeDigits cs
      (c :: ds, r)
    else ([], c :: cs)

def parseExpPart (acc : List Char) (cs : List Char) : Option (String × List Char) :=
  match cs with
  | e :: r =>
    if e = 'e' ∨ e = 'E' then
      let (sgn, r1) :=
        match r with
        | '+' :: r2 => (['+'], r2)
        | '-' :: r2 => (['-'], r2)
        | _ => (([] : List Char), r)
      match takeDigits r1 with
      | ([], _) => none
      | (ds, r2) => some (String.mk (acc ++ e :: (sgn ++ ds)), r2)
    else some (String.mk acc, cs)
  | [] => some (String.mk acc, [])

def parseFracPart (acc : List Char) (cs : List Char) : Option (String × List Char) :=
  match cs with
  | '.' :: r =>
    match takeDigits r with
    | ([], _) => none
    | (ds, r2) => parseExpPart (acc ++ '.' :: ds) r2
  | _ => parseExpPart acc cs

/-- Strict JSON number grammar: `-? (0 | [1-9][0-9]*) frac? exp?`. -/
def parseNumber (cs : List Char) : Option (String × List Char) :=
  let (neg, cs1) :=
    match cs with
    | '-' :: r => ((['-'] : List Char), r)
    | _ => (([] : List Char), cs)
  match cs1 with
  | c :: r =>
    if c = '0' then parseFracPart (neg ++ ['0']) r
    else if c.isDigit then
      let (ds, r2) := takeDigits r
      parseFracPart (neg ++ c :: ds) r2
    else none
  | [] => none

/-- Work items of the recursive-descent parser.  The mutually recursive
procedures (value / array tail / object tail / object member) are merged
into one fueled function so the recursion is structural on the fuel and
therefore reduces inside the kernel. -/
inductive ParseTask where
  | value (cs : List Char)
  | arrayRest (acc : List Json) (cs : List Char)
  | objRest (acc : List (String × Json)) (cs : List Char)
  | member (acc : List (String × Json)) (cs : List Char)

def parseStep : Nat → ParseTask → Option (Json × List Char)
  | 0, _ => none
  | fuel + 1, ParseTask.value cs =>
    (match skipWs cs with
    | [] => none
    | c :: rest =>
      if c = leftBrace then
        match skipWs rest with
        | c2 :: r2 =>
          if c2 = rightBrace then some (Json.obj [], r2)
          else parseStep fuel (ParseTask.member [] rest)
        | [] => none
      else if c = '[' then
        match skipWs rest with
        | ']' :: r2 => some (Json.arr [], r2)
        | _ =>
          match parseStep fuel (ParseTask.value rest) with
          | some (v, r2) => parseStep fuel (ParseTask.arrayRest [v] r2)
          | none => none
      else if c = '"' then
        match parseStringBody (rest.length + 1) [] rest with
        | some (s, r) => some (Json.str s, r)
        | none => none
      else if c = 't' then
        match rest with
        | 'r' :: 'u' :: 'e' :: r => some (Json.bool true, r)
        | _ => none
      else if c = 'f' then
        match rest with
        | 'a' :: 'l' :: 's' :: 'e' :: r => some (Json.bool false, r)
        | _ => none
      else if c = 'n' then
        match rest with
        | 'u' :: 'l' :: 'l' :: r => some (Json.nul, r)
        | _ => none
      else
        match parseNumber (c :: rest) with
        | some (lx, r) => some (Json.num lx, r)
        | none => none)
  | fuel + 1, ParseTask.arrayRest acc cs =>
    (match skipWs cs with
    | [] => none
    | c :: r =>
      if c = ']' then some (Json.arr acc.reverse, r)
      else if c = ',' then
        match parseStep fuel (ParseTask.value r) with
        | some (v, r2) => parseStep fuel (ParseTask.arrayRest (v :: acc) r2)
        | none => none
      else none)
  | fuel + 1, ParseTask.objRest acc cs =>
    (match skipWs cs with
    | [] => none
    | c :: r =>
      if c = rightBrace then some (Json.obj acc.reverse, r)
      else if c = ',' then parseStep fuel (ParseTask.member acc r)
      else none)
  | fuel + 1, ParseTask.member acc cs =>
    (match skipWs cs with
    | '"' :: r =>
      match parseStringBody (r.length + 1) [] r with
      | some (k, r2) =>
        match skipWs r2 with
        | ':' :: r3 =>
          match parseStep fuel (ParseTask.value r3) with
          | some (v, r4) => parseStep fuel (ParseTask.objRest ((k, v) :: acc) r4)
          | none => none
        | _ => none
      | none => none
    | _ => none)

def parseValue (fuel : Nat) (cs : List Char) : Option (Json × List Char) :=
  parseStep fuel (ParseTask.value cs)

/-- Model of `JSON.parse`: parse one value, then require only trailing
whitespace.  `none` models the thrown `SyntaxError`. -/
def jsonParse (s : String) : Option Json :=
  match parseValue (4 * s.data.length + 16) s.data with
  | some (v, rest) =>
    match skipWs rest with
    | [] => some v
    | _ => none
  | none => none

/-- `aiResponse.replace(/```json|```/g, '')`: at each position the regex
alternation removes `` ```json `` first, else `` ``` ``, else keeps the
character. -/
def stripFencesAux : Nat → List Char → List Char
  | 0, _ => []
  | _, [] => []
  | fuel + 1, c :: cs =>
    if List.isPrefixOf "```json".data (c :: cs) then
      stripFencesAux fuel ((c :: cs).drop 7)
    else if List.isPrefixOf "```".data (c :: cs) then
      stripFencesAux fuel ((c :: cs).drop 3)
    else c :: stripFencesAux fuel cs

def stripFences (s : String) : String :=
  String.mk (stripFencesAux s.data.length s.data)

/-- JS `s.includes(c)` for a one-character needle. -/
def containsChar (s : String) (c : Char) : Bool :=
  s.data.contains c

/-- `s.substring(0, n)`: the first `n` characters (the whole string when
shorter).  JS counts UTF-16 units; for the BMP text handled here the two
coincide. -/
def jsSubstringTo (s : String) (n : Nat) : String :=
  String.mk (s.data.take n)

/-- The whitespace set of JS `String.prototype.trim` (the code points that
occur in practice; space separators beyond these do not appear in the
repository's data). -/
def isJsSpace (c : Char) : Bool :=
  (c == ' ') || (c == '\t') || (c == '\n') || (c == '\r') ||
    (c == Char.ofNat 11) || (c == Char.ofNat 12) ||
    (c == Char.ofNat 160) || (c == Char.ofNat 65279)

/-- JS `s.trim()`. -/
def jsTrim (s : String) : String :=
  String.mk (((s.data.dropWhile isJsSpace).reverse.dropWhile isJsSpace).reverse)

/-- JS `String.prototype.split` with a one-character separator: never
returns an empty list, keeps empty segments. -/
def splitOnCharAux (sep : Char) : List Char → List Char → List String
  | acc, [] => [String.mk acc.reverse]
  | acc, c :: cs =>
    if c = sep then String.mk acc.reverse :: splitOnCharAux sep [] cs
    else splitOnCharAux sep (c :: acc) cs

def splitOnChar (sep : Char) (s : String) : List String :=
  splitOnCharAux sep [] s.data

/-! ### Data model (`types.ts`) -/

structure SourceRef where
  title : String
  uri : String
  deriving Repr, DecidableEq

/-- `AnalysisResult` of `types.ts`.  `detailedAnalysis` and `sources` are
optional fields of the interface. -/
structure AnalysisResult where
  summary : String
  keyPoints : List String
  conclusion : String
  detailedAnalysis : Option String := none
  sources : Option (List SourceRef) := none
  deriving Repr, DecidableEq

/-! ### Result Normalizer (`src/services/geminiService.ts`, `requestBackend`)

The transport (`fetch` + `response.json()`) is abstracted as an outcome:
either an exception message (caught by the outer `try`) or the gateway
response's HTTP status together with its parsed JSON body. -/

/-- `data.candidates?.[0]?.content?.parts?.[0]?.text || ""`. -/
def extractCandidateText (data : Json) : String :=
  let step := (((((getField data "candidates").bind (fun j => getIndex j 0)).bind
    (fun j => getField j "content")).bind (fun j => getField j "parts")).bind
    (fun j => getIndex j 0)).bind (fun j => getField j "text")
  match step with
  | some (Json.str s) => s
  | _ => ""

/-- The plain-text fallback presentation of `requestBackend` (lines 64-69):
`substring(0, 100)` plus an ellipsis, the full text as the one key point. -/
def plainTextResult (aiResponse : String) : AnalysisResult :=
  { summary := jsSubstringTo aiResponse 100 ++ "..."
    keyPoints := [aiResponse]
    conclusion := "解析完成"
    detailedAnalysis := some aiResponse }

/-- Success branch of `requestBackend` (lines 46-69): extract the candidate
text; if it contains a brace, strip code fences, trim, and `JSON.parse` it —
on success read the four fields with their fallbacks, on a parse exception
(or when no brace is present) fall back to `plainTextResult`. -/
def normalizeSuccess (data : Json) : AnalysisResult :=
  let aiResponse := extractCandidateText data
  if containsChar aiResponse leftBrace then
    match jsonParse (jsTrim (stripFences aiResponse)) with
    | some parsed =>
      { summary := jsOrStr (getField parsed "summary") "分析完成"
        keyPoints := strElems (getField parsed "keyPoints")
        conclusion := jsOrStr (getField parsed "conclusion") ""
        detailedAnalysis := some (jsOrStr (getField parsed "detailedAnalysis") aiResponse) }
    | none => plainTextResult aiResponse
  else plainTextResult aiResponse

def defaultRateLimitMessage : String := "Google Gemini API 调用额度已超限，请稍后再试。"

/-- `requestBackend` after a completed transport call (lines 22-69):
`response.ok` is status 200-299; the rate-limit branch fires on status 429
or on `data.error === 'RATE_LIMIT'`; any other non-ok status yields the
generic error result. -/
def normalizeEnvelope (status : Nat) (data : Json) : AnalysisResult :=
  if 200 ≤ status ∧ status ≤ 299 then normalizeSuccess data
  else if status = 429 ∨ jsStrEq (getField data "error") "RATE_LIMIT" then
    let limitMessage := jsOrStr (getField data "message") defaultRateLimitMessage
    { summary := "错误: API 额度超限"
      keyPoints := [limitMessage]
      conclusion := "请求失败（额度超限）"
      detailedAnalysis := some limitMessage }
  else
    let errorMessage := jsOrStr ((getField data "error").bind (fun e => getField e "message"))
      (jsOrStr (getField data "message") ("请求失败: " ++ toString status))
    { summary := "错误: " ++ errorMessage
      keyPoints := []
      conclusion := "请求失败"
      detailedAnalysis := some errorMessage }

/-- Outcome of the abstracted transport (`fetch('/api/gemini', ...)` plus
`response.json()`): an exception message, or status and parsed body. -/
abbrev Transport := Json → Except String (Nat × Json)

/-- The whole of `requestBackend` for a given payload: the outer
`try`/`catch` converts a transport exception into the error-shaped result
(lines 71-79); a completed response is normalized by `normalizeEnvelope`. -/
def requestBackend (tr : Transport) (payload : Json) : AnalysisResult :=
  match tr payload with
  | Except.error msg =>
    { summary := "错误: " ++ msg
      keyPoints := []
      conclusion := "请求失败"
      detailedAnalysis := some msg }
  | Except.ok (status, data) => normalizeEnvelope status data

/-! ### Modality Adapter (`GeminiService` methods) -/

/-- `base64.split(',')[1] || base64`. -/
def stripDataUrl (base64 : String) : String :=
  match (splitOnChar ',' base64).get? 1 with
  | some s => if s = "" then base64 else s
  | none => base64

def analyzeTextPayload (text : String) : Json :=
  Json.obj [("text", Json.str text)]

def analyzeImagePayload (base64 : String) : Json :=
  Json.obj [("text", Json.str "请分析这张图片的内容"),
            ("image", Json.str (stripDataUrl base64))]

def analyzeDocumentPayload (base64 mimeType : String) : Json :=
  Json.obj [("text", Json.str "请分析这份文档的内容"),
            ("file", Json.obj [("base64", Json.str (stripDataUrl base64)),
                               ("mimeType", Json.str mimeType)])]

def analyzeWebUrlPayload (url : String) : Json :=
  Json.obj [("text", Json.str ("请分析此网页内容：" ++ url))]

def analyzeVideoUrlPayload (url : String) : Json :=
  Json.obj [("text", Json.str ("请分析此视频内容：" ++ url))]

def analyzeText (tr : Transport) (text : String) : AnalysisResult :=
  requestBackend tr (analyzeTextPayload text)

def analyzeImage (tr : Transport) (base64 : String) : AnalysisResult :=
  requestBackend tr (analyzeImagePayload base64)

def analyzeDocument (tr : Transport) (base64 mimeType : String) : AnalysisResult :=
  requestBackend tr (analyzeDocumentPayload base64 mimeType)

def analyzeAudioFile (tr : Transport) (base64 mimeType : String) : AnalysisResult :=
  analyzeDocument tr base64 mimeType

def analyzeVideoFile (tr : Transport) (base64 mimeType : String) : AnalysisResult :=
  analyzeDocument tr base64 mimeType

def analyzeWebUrl (tr : Transport) (url : String) : AnalysisResult :=
  requestBackend tr (analyzeWebUrlPayload url)

def analyzeVideoUrl (tr : Transport) (url : String) : AnalysisResult :=
  requestBackend tr (analyzeVideoUrlPayload url)

/-! ### Gateway Handler and Request Builder (`api/gemini.ts`, `handler`)

The upstream call (`fetch(API_URL..)` + `response.json()`) is abstracted as
a function from the upstream request body to a status and parsed body; the
handler records the bodies of the upstream calls it makes so that
"no network call occurs" is a provable statement. -/

structure UpstreamResponse where
  status : Nat
  body : Json

/-- One element of the `parts` array built by the handler.  The text and
data slots carry the raw JS values taken from the request body. -/
inductive Part where
  | text (value : Json)
  | inlineData (mimeType : Json) (data : Json)
  deriving Repr

def partToJson : Part → Json
  | Part.text v => Json.obj [("text", v)]
  | Part.inlineData mt d =>
    Json.obj [("inlineData", Json.obj [("mimeType", mt), ("data", d)])]

/-- Body validation (line 31): `!req.body || (!req.body.text &&
!req.body.image && !(req.body.file && req.body.file.base64))` rejects. -/
def validBody (body : Json) : Bool :=
  jsTruthy body &&
    (fieldTruthy body "text" || fieldTruthy body "image" ||
      (match getField body "file" with
       | some f => jsTruthy f && fieldTruthy f "base64"
       | none => false))

/-- Request Builder (lines 63-87): a text part first (`req.body.text ||
"Hello"`), then an image inline part pushed under `if (req.body.image)`,
then a file inline part pushed under `if (req.body.file &&
req.body.file.base64)`. -/
def buildParts (body : Json) : List Part :=
  let p0 := [Part.text (jsOr (getField body "text") (Json.str "Hello"))]
  let p1 :=
    match getField body "image" with
    | some v => if jsTruthy v then p0 ++ [Part.inlineData (Json.str "image/jpeg") v] else p0
    | none => p0
  match getField body "file" with
  | some f =>
    if jsTruthy f then
      match getField f "base64" with
      | some b64 =>
        if jsTruthy b64 then
          p1 ++ [Part.inlineData (jsOr (getField f "mimeType") (Json.str "application/octet-stream")) b64]
        else p1
      | none => p1
    else p1
  | none => p1

/-- The JSON body sent upstream: `{contents: [{parts: [...]}]}`. -/
def gatewayUpstreamBody (body : Json) : Json :=
  Json.obj [("contents", Json.arr [Json.obj [("parts",
    Json.arr ((buildParts body).map partToJson))]])]

def healthEnvelope : Json :=
  Json.obj [("ok", Json.bool true), ("message", Json.str "Gemini proxy is running")]

def methodNotAllowedEnvelope (method : String) : Json :=
  Json.obj [("error", Json.str "METHOD_NOT_ALLOWED"),
            ("message", Json.str ("仅支持 POST /api/gemini，请使用 POST 请求。当前方法: " ++ method))]

def invalidRequestEnvelope : Json :=
  Json.obj [("error", Json.str "INVALID_REQUEST"),
            ("message", Json.str "请求 body 不能为空，请至少提供 text、image 或 file.base64 其中之一。")]

def rateLimitEnvelope (raw : Json) : Json :=
  Json.obj [("error", Json.str "RATE_LIMIT"),
            ("message", Json.str "Google Gemini API 调用额度已超限，请稍后重试或检查配额设置。"),
            ("raw", raw)]

def upstreamErrorEnvelope (status : Nat) (raw : Json) : Json :=
  Json.obj [("error", Json.str "UPSTREAM_ERROR"),
            ("message", Json.str (jsOrStr ((getField raw "error").bind (fun e => getField e "message"))
              (jsOrStr (getField raw "message") ("上游服务返回错误: " ++ toString status)))),
            ("raw", raw)]

/-- The handler's observable result: HTTP status, JSON body, and the list
of request bodies sent upstream during the call. -/
structure GatewayResult where
  status : Nat
  body : Json
  upstreamCalls : List Json
  deriving Repr

/-- Gateway Handler (`api/gemini.ts` default export), with the upstream
HTTP exchange abstracted as `upstream`.  `response.ok` of `node-fetch` is
status 200-299. -/
def handler (method : String) (body : Json) (upstream : Json → UpstreamResponse) :
    GatewayResult :=
  if method = "GET" then
    { status := 200, body := healthEnvelope, upstreamCalls := [] }
  else if method ≠ "POST" then
    { status := 405, body := methodNotAllowedEnvelope method, upstreamCalls := [] }
  else if validBody body = false then
    { status := 400, body := invalidRequestEnvelope, upstreamCalls := [] }
  else
    let reqBody := gatewayUpstreamBody body
    let resp := upstream reqBody
    if 200 ≤ resp.status ∧ resp.status ≤ 299 then
      { status := 200, body := resp.body, upstreamCalls := [reqBody] }
    else if resp.status = 429 then
      { status := 429, body := rateLimitEnvelope resp.body, upstreamCalls := [reqBody] }
    else
      { status := resp.status, body := upstreamErrorEnvelope resp.status resp.body,
        upstreamCalls := [reqBody] }

/-! ### Shared helper lemmas -/

lemma stringDataAppend (a b : String) : (a ++ b).data = a.data ++ b.data := by
  cases a; cases b; rfl

lemma stringEqEmptyIffData (a : String) : a = "" ↔ a.data = [] := by
  constructor
  · intro h; rw [h]
  · intro h
    cases a with
    | mk l =>
      simp only [String.data] at h
      rw [h]

lemma stringAppendNeEmptyLeft (a b : String) (ha : a ≠ "") : a ++ b ≠ "" := by
  intro h
  rw [stringEqEmptyIffData, stringDataAppend, List.append_eq_nil] at h
  exact ha ((stringEqEmptyIffData a).mpr h.1)

lemma stringAppendNeEmptyRight (a b : String) (hb : b ≠ "") : a ++ b ≠ "" := by
  intro h
  rw [stringEqEmptyIffData, stringDataAppend, List.append_eq_nil] at h
  exact hb ((stringEqEmptyIffData b).mpr h.2)

lemma jsOrStr_ne_empty (o : Option Json) (fb : String) (hfb : fb ≠ "") :
    jsOrStr o fb ≠ "" := by
  unfold jsOrStr
  cases o with
  | none => exact hfb
  | some v =>
    cases v with
    | nul => exact hfb
    | bool b => exact hfb
    | num l => exact hfb
    | arr xs => exact hfb
    | obj fs => exact hfb
    | str s =>
      show (if s = "" then fb else s) ≠ ""
      by_cases hs : s = ""
      · rw [if_pos hs]; exact hfb
      · rw [if_neg hs]; exact hs

/-- The fixed rate-limit result of `requestBackend` (lines 28-33). -/
def rateLimitResult (msg : String) : AnalysisResult :=
  { summary := "错误: API 额度超限"
    keyPoints := [msg]
    conclusion := "请求失败（额度超限）"
    detailedAnalysis := some msg }

lemma normalizeEnvelope_rate_limit (status : Nat) (data : Json)
    (hok : ¬ (200 ≤ status ∧ status ≤ 299))
    (hrl : status = 429 ∨ jsStrEq (getField data "error") "RATE_LIMIT" = true) :
    normalizeEnvelope status data =
      rateLimitResult (jsOrStr (getField data "message") defaultRateLimitMessage) := by
  unfold normalizeEnvelope
  rw [if_neg hok, if_pos hrl]
  rfl

/-! ### Claim C1 -/

/-- The exact upstream text of the claim:
`Result: {"summary":"S","keyPoints":["a"],"conclusion":"C"}`. -/
def tC1 : String :=
  "Result: \x7b\"summary\":\"S\",\"keyPoints\":[\"a\"],\"conclusion\":\"C\"\x7d"

/-- A gateway success body whose extracted candidate text is `tC1`. -/
def dataC1 : Json :=
  Json.obj [("candidates", Json.arr [Json.obj [("content", Json.obj [("parts",
    Json.arr [Json.obj [("text", Json.str tC1)]])])]])]

/-- C1, counterexample: on the success envelope carrying exactly the text
`Result: {"summary":"S","keyPoints":["a"],"conclusion":"C"}` the normalizer
does NOT return summary `"S"`: the leading `Result: ` prefix makes
`JSON.parse` fail, so the structured fields are never extracted. -/
theorem C1_counterexample :
    (normalizeEnvelope 200 dataC1).summary ≠ "S" := by decide

/-- C1, amended: for a gateway success envelope whose extracted upstream
text is exactly `Result: {"summary":"S","keyPoints":["a"],"conclusion":"C"}`,
the Result Normalizer returns the plain-text fallback: the whole text (under
100 characters) plus an ellipsis as summary, the text as the single key
point, the fixed conclusion `解析完成`, and the text as detailedAnalysis. -/
theorem C1_amended (data : Json) (h : extractCandidateText data = tC1) :
    normalizeEnvelope 200 data =
      { summary := tC1 ++ "..."
        keyPoints := [tC1]
        conclusion := "解析完成"
        detailedAnalysis := some tC1 } := by
  have hs : normalizeSuccess data =
      { summary := tC1 ++ "...", keyPoints := [tC1], conclusion := "解析完成",
        detailedAnalysis := some tC1 } := by
    simp only [normalizeSuccess, h]
    decide
  unfold normalizeEnvelope
  rw [if_pos (by omega : 200 ≤ 200 ∧ 200 ≤ 299)]
  exact hs

/-- C1, witness: the amended statement applied to the concrete envelope. -/
theorem C1_witness :
    normalizeEnvelope 200 dataC1 =
      { summary := tC1 ++ "..."
        keyPoints := [tC1]
        conclusion := "解析完成"
        detailedAnalysis := some tC1 } :=
  C1_amended dataC1 rfl

/-! ### Claim C4 -/

/-- C4: a gateway response with HTTP status 429 always normalizes to a
result whose summary is exactly `错误: API 额度超限`, and whose keyPoints is
the one-element sequence holding the server-supplied (non-empty) message,
or the default message when absent. -/
theorem C4_rate_limit_result (data : Json) :
    (normalizeEnvelope 429 data).summary = "错误: API 额度超限" ∧
    (∀ m, getField data "message" = some (Json.str m) → m ≠ "" →
      (normalizeEnvelope 429 data).keyPoints = [m]) ∧
    (getField data "message" = none →
      (normalizeEnvelope 429 data).keyPoints = [defaultRateLimitMessage]) := by
  have h := normalizeEnvelope_rate_limit 429 data (by omega) (Or.inl rfl)
  refine ⟨by rw [h]; rfl, ?_, ?_⟩
  · intro m hm hne
    rw [h]
    show [jsOrStr (getField data "message") defaultRateLimitMessage] = [m]
    rw [hm]
    show [if m = "" then defaultRateLimitMessage else m] = [m]
    rw [if_neg hne]
  · intro hm
    rw [h]
    show [jsOrStr (getField data "message") defaultRateLimitMessage] =
      [defaultRateLimitMessage]
    rw [hm]
    rfl

/-- C4, witness: a 429 body carrying `message: "slow down"`. -/
theorem C4_witness :
    (normalizeEnvelope 429 (Json.obj [("message", Json.str "slow down")])).summary
        = "错误: API 额度超限" ∧
    (normalizeEnvelope 429 (Json.obj [("message", Json.str "slow down")])).keyPoints
        = ["slow down"] :=
  ⟨(C4_rate_limit_result (Json.obj [("message", Json.str "slow down")])).1,
   (C4_rate_limit_result (Json.obj [("message", Json.str "slow down")])).2.1
     "slow down" rfl (by decide)⟩

/-! ### Claim C9 -/

/-- C9: when the gateway response is not ok and its body's `error` field is
the string `RATE_LIMIT`, the normalizer returns the fixed quota-exhausted
result even when the status is not 429. -/
theorem C9_error_kind_rate_limit (status : Nat) (data : Json)
    (hok : ¬ (200 ≤ status ∧ status ≤ 299))
    (herr : getField data "error" = some (Json.str "RATE_LIMIT")) :
    normalizeEnvelope status data =
      rateLimitResult (jsOrStr (getField data "message") defaultRateLimitMessage) := by
  apply normalizeEnvelope_rate_limit status data hok
  right
  rw [herr]
  rfl

/-- C9, witness: non-429 status 500 with body `{error: "RATE_LIMIT"}` still
yields the quota-exhausted result. -/
theorem C9_witness :
    normalizeEnvelope 500 (Json.obj [("error", Json.str "RATE_LIMIT")]) =
      rateLimitResult defaultRateLimitMessage := by
  rw [C9_error_kind_rate_limit 500 (Json.obj [("error", Json.str "RATE_LIMIT")])
    (by omega) rfl]
  rfl

/-! ### Claim C5 -/

/-- The error-shaped result of the adapter's catch-all branch. -/
def errorShapedResult (msg : String) : AnalysisResult :=
  { summary := "错误: " ++ msg
    keyPoints := []
    conclusion := "请求失败"
    detailedAnalysis := some msg }

/-- C5: every Modality Adapter operation resolves to an `AnalysisResult`
(each is a total function here, mirroring the catch-all in the source) and
converts a transport failure into the error-shaped result instead of
propagating it: under a transport that fails with message `msg`, all seven
operations return `errorShapedResult msg`. -/
theorem C5_never_throws (tr : Transport) (msg : String)
    (h : ∀ p, tr p = Except.error msg)
    (text b64 mt url vurl : String) :
    analyzeText tr text = errorShapedResult msg ∧
    analyzeImage tr b64 = errorShapedResult msg ∧
    analyzeDocument tr b64 mt = errorShapedResult msg ∧
    analyzeAudioFile tr b64 mt = errorShapedResult msg ∧
    analyzeVideoFile tr b64 mt = errorShapedResult msg ∧
    analyzeWebUrl tr url = errorShapedResult msg ∧
    analyzeVideoUrl tr vurl = errorShapedResult msg := by
  refine ⟨?_, ?_, ?_, ?_, ?_, ?_, ?_⟩ <;>
    simp [analyzeText, analyzeImage, analyzeDocument, analyzeAudioFile,
      analyzeVideoFile, analyzeWebUrl, analyzeVideoUrl, requestBackend, h,
      errorShapedResult]

/-- C5, witness: a concrete always-failing transport. -/
theorem C5_witness :
    analyzeText (fun _ => Except.error "network down") "hi"
        = errorShapedResult "network down" ∧
    analyzeImage (fun _ => Except.error "network down") "b"
        = errorShapedResult "network down" ∧
    analyzeDocument (fun _ => Except.error "network down") "b" "m"
        = errorShapedResult "network down" ∧
    analyzeAudioFile (fun _ => Except.error "network down") "b" "m"
        = errorShapedResult "network down" ∧
    analyzeVideoFile (fun _ => Except.error "network down") "b" "m"
        = errorShapedResult "network down" ∧
    analyzeWebUrl (fun _ => Except.error "network down") "u"
        = errorShapedResult "network down" ∧
    analyzeVideoUrl (fun _ => Except.error "network down") "v"
        = errorShapedResult "network down" :=
  C5_never_throws (fun _ => Except.error "network down") "network down"
    (fun _ => rfl) "hi" "b" "m" "u" "v"

/-! ### Claim C6 -/

/-- C6: a POST whose body is the empty object is rejected with kind
`INVALID_REQUEST` and status 400, and no upstream call occurs, whatever the
upstream would answer. -/
theorem C6_empty_body_rejected (upstream : Json → UpstreamResponse) :
    handler "POST" (Json.obj []) upstream =
      { status := 400, body := invalidRequestEnvelope, upstreamCalls := [] } := rfl

/-! ### Claim C2 -/

/-- C2: for every valid POST whose upstream call completes with a 2xx
status, the handler returns the upstream response body verbatim under
status 200, having made exactly that one upstream call. -/
theorem C2_success_verbatim (body : Json) (upstream : Json → UpstreamResponse)
    (hv : validBody body = true)
    (h2 : 200 ≤ (upstream (gatewayUpstreamBody body)).status)
    (h3 : (upstream (gatewayUpstreamBody body)).status ≤ 299) :
    handler "POST" body upstream =
      { status := 200, body := (upstream (gatewayUpstreamBody body)).body,
        upstreamCalls := [gatewayUpstreamBody body] } := by
  unfold handler
  rw [if_neg (by decide : ¬ ("POST" = "GET"))]
  rw [if_neg (by decide : ¬ ("POST" ≠ "POST"))]
  rw [if_neg (by simp [hv] : ¬ (validBody body = false))]
  exact if_pos ⟨h2, h3⟩

/-- C2, witness: a one-field text body and an upstream answering 204. -/
theorem C2_witness :
    handler "POST" (Json.obj [("text", Json.str "hi")])
        (fun _ => ⟨204, Json.str "ok"⟩) =
      { status := 200, body := Json.str "ok",
        upstreamCalls := [gatewayUpstreamBody (Json.obj [("text", Json.str "hi")])] } :=
  C2_success_verbatim (Json.obj [("text", Json.str "hi")])
    (fun _ => ⟨204, Json.str "ok"⟩) (by decide) (by decide) (by decide)

/-! ### Claim C3 -/

/-- The image segment the spec describes: one inline-data part with the
fixed MIME type `image/jpeg` when `image` is set (truthy), nothing
otherwise. -/
def imagePartSeg (body : Json) : List Part :=
  match getField body "image" with
  | some v => if jsTruthy v then [Part.inlineData (Json.str "image/jpeg") v] else []
  | none => []

/-- The file segment the spec describes: one inline-data part carrying the
file's base64 data with its propagated MIME type, defaulting to
`application/octet-stream`, when `file` with a truthy `base64` is set;
nothing otherwise. -/
def filePartSeg (body : Json) : List Part :=
  match getField body "file" with
  | some f =>
    if jsTruthy f then
      match getField f "base64" with
      | some b64 =>
        if jsTruthy b64 then
          [Part.inlineData (jsOr (getField f "mimeType")
            (Json.str "application/octet-stream")) b64]
        else []
      | none => []
    else []
  | none => []

/-- C3: for every accepted payload the built parts sequence is exactly the
text part first (the payload's text when present, otherwise the fixed
placeholder `Hello`), followed by the image inline-data segment (fixed
MIME `image/jpeg`) and then the file inline-data segment (propagated MIME
defaulting to `application/octet-stream`) — so a text-only payload yields
just the text part, image-only appends the image part, file-only appends
the file part, and when both are set both are appended, image then file. -/
theorem C3_parts_order (body : Json) (_hv : validBody body = true) :
    buildParts body =
      Part.text (jsOr (getField body "text") (Json.str "Hello")) ::
        (imagePartSeg body ++ filePartSeg body) := by
  simp only [buildParts, imagePartSeg, filePartSeg]
  repeat' split
  all_goals simp

def bodyC3 : Json :=
  Json.obj [("text", Json.str "hi"), ("image", Json.str "IMG"),
            ("file", Json.obj [("base64", Json.str "FB"),
                               ("mimeType", Json.str "text/plain")])]

/-- C3, witness: the full sequence for a payload with everything set, an
image-only payload (placeholder text, fixed MIME), and a text-only
payload. -/
theorem C3_witness :
    buildParts bodyC3 =
      [Part.text (Json.str "hi"),
       Part.inlineData (Json.str "image/jpeg") (Json.str "IMG"),
       Part.inlineData (Json.str "text/plain") (Json.str "FB")] ∧
    buildParts (Json.obj [("image", Json.str "IMG")]) =
      [Part.text (Json.str "Hello"),
       Part.inlineData (Json.str "image/jpeg") (Json.str "IMG")] ∧
    buildParts (Json.obj [("text", Json.str "hi")]) =
      [Part.text (Json.str "hi")] := by
  refine ⟨?_, ?_, ?_⟩ <;> (rw [C3_parts_order _ (by decide)]; rfl)

/-! ### Claim C7 -/

lemma splitOnCharAux_append (sep : Char) (pre : List Char) :
    ∀ acc rest, (∀ c ∈ pre, c ≠ sep) →
      splitOnCharAux sep acc (pre ++ sep :: rest) =
        String.mk (acc.reverse ++ pre) :: splitOnCharAux sep [] rest := by
  induction pre with
  | nil =>
    intro acc rest _
    rw [show splitOnCharAux sep acc ([] ++ sep :: rest) =
      (if sep = sep then String.mk acc.reverse :: splitOnCharAux sep [] rest
       else splitOnCharAux sep (sep :: acc) rest) from rfl]
    rw [if_pos rfl, List.append_nil]
  | cons c pre ih =>
    intro acc rest h
    rw [show splitOnCharAux sep acc ((c :: pre) ++ sep :: rest) =
      (if c = sep then String.mk acc.reverse :: splitOnCharAux sep [] (pre ++ sep :: rest)
       else splitOnCharAux sep (c :: acc) (pre ++ sep :: rest)) from rfl]
    rw [if_neg (h c (List.mem_cons_self c pre))]
    rw [ih (c :: acc) rest (fun x hx => h x (List.mem_cons_of_mem c hx))]
    rw [List.reverse_cons, List.append_assoc]
    rfl

lemma splitOnCharAux_no_sep (sep : Char) (l : List Char) :
    ∀ acc, (∀ c ∈ l, c ≠ sep) →
      splitOnCharAux sep acc l = [String.mk (acc.reverse ++ l)] := by
  induction l with
  | nil =>
    intro acc _
    rw [show splitOnCharAux sep acc [] = [String.mk acc.reverse] from rfl,
      List.append_nil]
  | cons c l ih =>
    intro acc h
    rw [show splitOnCharAux sep acc (c :: l) =
      (if c = sep then String.mk acc.reverse :: splitOnCharAux sep [] l
       else splitOnCharAux sep (c :: acc) l) from rfl]
    rw [if_neg (h c (List.mem_cons_self c l))]
    rw [ih (c :: acc) (fun x hx => h x (List.mem_cons_of_mem c hx))]
    rw [List.reverse_cons, List.append_assoc]
    rfl

lemma stripDataUrl_strips (pre d : String)
    (hpre : ∀ c ∈ pre.data, c ≠ ',') (hd : ∀ c ∈ d.data, c ≠ ',')
    (hne : d ≠ "") :
    stripDataUrl (pre ++ "," ++ d) = d := by
  have hdata : (pre ++ "," ++ d).data = pre.data ++ ',' :: d.data := by
    rw [stringDataAppend, stringDataAppend, List.append_assoc]
    rfl
  have hmk : String.mk d.data = d := by cases d; rfl
  unfold stripDataUrl splitOnChar
  rw [hdata]
  rw [splitOnCharAux_append ',' pre.data [] d.data hpre]
  rw [splitOnCharAux_no_sep ',' d.data [] hd]
  show (if String.mk d.data = "" then pre ++ "," ++ d else String.mk d.data) = d
  rw [hmk, if_neg hne]

/-- C7: for image input formatted as a data URL (a comma-free prefix, a
comma, then non-empty comma-free base64 data), analyzeImage's payload
carries the bare base64 data with the prefix stripped. -/
theorem C7_data_url_prefix_stripped (pre d : String)
    (hpre : ∀ c ∈ pre.data, c ≠ ',') (hd : ∀ c ∈ d.data, c ≠ ',')
    (hne : d ≠ "") :
    getField (analyzeImagePayload (pre ++ "," ++ d)) "image" =
      some (Json.str d) := by
  show some (Json.str (stripDataUrl (pre ++ "," ++ d))) = some (Json.str d)
  rw [stripDataUrl_strips pre d hpre hd hne]

/-- C7, witness: the data URL `data:image/png;base64,AAAA`. -/
theorem C7_witness :
    getField (analyzeImagePayload ("data:image/png;base64" ++ "," ++ "AAAA"))
        "image" = some (Json.str "AAAA") :=
  C7_data_url_prefix_stripped "data:image/png;base64" "AAAA"
    (by decide) (by decide) (by decide)

/-! ### Claim C8 -/

lemma normalizeSuccess_populated (data : Json) :
    ∃ s kp c d, normalizeSuccess data =
      { summary := s, keyPoints := kp, conclusion := c,
        detailedAnalysis := some d } ∧ s ≠ "" := by
  simp only [normalizeSuccess]
  by_cases hb : containsChar (extractCandidateText data) leftBrace = true
  · rw [if_pos hb]
    cases hp : jsonParse (jsTrim (stripFences (extractCandidateText data))) with
    | none =>
      exact ⟨_, _, _, _, rfl,
        stringAppendNeEmptyRight _ "..." (by decide)⟩
    | some parsed =>
      exact ⟨_, _, _, _, rfl, jsOrStr_ne_empty _ _ (by decide)⟩
  · rw [if_neg hb]
    exact ⟨_, _, _, _, rfl, stringAppendNeEmptyRight _ "..." (by decide)⟩

lemma normalizeEnvelope_populated (status : Nat) (data : Json) :
    ∃ s kp c d, normalizeEnvelope status data =
      { summary := s, keyPoints := kp, conclusion := c,
        detailedAnalysis := some d } ∧ s ≠ "" := by
  unfold normalizeEnvelope
  by_cases hok : 200 ≤ status ∧ status ≤ 299
  · rw [if_pos hok]
    exact normalizeSuccess_populated data
  · rw [if_neg hok]
    by_cases hrl : status = 429 ∨ jsStrEq (getField data "error") "RATE_LIMIT" = true
    · rw [if_pos hrl]
      exact ⟨_, _, _, _, rfl, by decide⟩
    · rw [if_neg hrl]
      exact ⟨_, _, _, _, rfl, stringAppendNeEmptyLeft "错误: " _ (by decide)⟩

/-- C8: every result returned by the adapter is fully populated — on every
path (JSON-parse success, plain-text fallback, rate limit, other error,
caught exception) the record has all three mandatory fields set, a
non-empty summary, and a set detailedAnalysis — and when the upstream text
parses as a JSON object carrying none of the structured fields, they are
filled with the documented defaults (`分析完成`, empty sequence, empty
string, the raw text). -/
theorem C8_fully_populated :
    (∀ (tr : Transport) (payload : Json), ∃ s kp c d,
      requestBackend tr payload =
        { summary := s, keyPoints := kp, conclusion := c,
          detailedAnalysis := some d } ∧ s ≠ "") ∧
    (∀ status data, 200 ≤ status → status ≤ 299 →
      containsChar (extractCandidateText data) leftBrace = true →
      jsonParse (jsTrim (stripFences (extractCandidateText data))) =
        some (Json.obj []) →
      normalizeEnvelope status data =
        { summary := "分析完成", keyPoints := [], conclusion := "",
          detailedAnalysis := some (extractCandidateText data) }) := by
  constructor
  · intro tr payload
    unfold requestBackend
    cases tr payload with
    | error msg =>
      exact ⟨_, _, _, _, rfl, stringAppendNeEmptyLeft "错误: " msg (by decide)⟩
    | ok sd =>
      obtain ⟨status, data⟩ := sd
      exact normalizeEnvelope_populated status data
  · intro status data h1 h2 hb hp
    unfold normalizeEnvelope
    rw [if_pos ⟨h1, h2⟩]
    simp only [normalizeSuccess]
    rw [if_pos hb, hp]
    rfl

def dataC8 : Json :=
  Json.obj [("candidates", Json.arr [Json.obj [("content", Json.obj [("parts",
    Json.arr [Json.obj [("text", Json.str "\x7b\x7d")]])])]])]

/-- C8, witness: a failing transport on the one hand, and the success body
whose candidate text is the empty JSON object on the other. -/
theorem C8_witness :
    (∃ s kp c d, requestBackend (fun _ => Except.error "boom") Json.nul =
      { summary := s, keyPoints := kp, conclusion := c,
        detailedAnalysis := some d } ∧ s ≠ "") ∧
    normalizeEnvelope 200 dataC8 =
      { summary := "分析完成", keyPoints := [], conclusion := "",
        detailedAnalysis := some (extractCandidateText dataC8) } :=
  ⟨C8_fully_populated.1 (fun _ => Except.error "boom") Json.nul,
   C8_fully_populated.2 200 dataC8 (by decide) (by decide) (by decide) (by rfl)⟩

/-! ### Claim C10 -/

/-- C10: validation treats empty strings as absent — a POST body whose
`text` is `""`, whose `image` is `""` or missing, and whose `file.base64`
is `""` or missing is rejected with `INVALID_REQUEST`/400 and no upstream
call occurs. -/
theorem C10_empty_is_absent (body : Json)
    (ht : getField body "text" = some (Json.str ""))
    (hi : getField body "image" = some (Json.str "") ∨ getField body "image" = none)
    (hf : ∀ f, getField body "file" = some f →
      getField f "base64" = some (Json.str "") ∨ getField f "base64" = none)
    (upstream : Json → UpstreamResponse) :
    handler "POST" body upstream =
      { status := 400, body := invalidRequestEnvelope, upstreamCalls := [] } := by
  have hstr : jsTruthy (Json.str "") = false := rfl
  have hvb : validBody body = false := by
    rcases hi with hi | hi <;>
    · cases hfile : getField body "file" with
      | none => simp [validBody, fieldTruthy, ht, hi, hfile, hstr]
      | some f =>
        rcases hf f hfile with hb | hb <;>
          simp [validBody, fieldTruthy, ht, hi, hfile, hb, hstr]
  unfold handler
  rw [if_neg (by decide : ¬ ("POST" = "GET"))]
  rw [if_neg (by decide : ¬ ("POST" ≠ "POST"))]
  rw [if_pos hvb]

def bodyC10 : Json :=
  Json.obj [("text", Json.str ""), ("image", Json.str ""),
            ("file", Json.obj [("base64", Json.str "")])]

/-- C10, witness: all three fields present but holding empty strings. -/
theorem C10_witness :
    handler "POST" bodyC10 (fun _ => ⟨200, Json.nul⟩) =
      { status := 400, body := invalidRequestEnvelope, upstreamCalls := [] } :=
  C10_empty_is_absent bodyC10 rfl (Or.inl rfl)
    (fun f hf => by cases hf; exact Or.inl rfl)
    (fun _ => ⟨200, Json.nul⟩)

end ProcessorAI
